import Mathlib

/-!
Shallow embedding of the ticker_deck hotkey input interpreter
(src/app/utils/hotkeys.ts) and of the keydown router of
src/app/components/TradingPopup.tsx, together with an operational model
of the host event loop (per-call state copies, closure-captured snapshots,
and setTimeout timers), and theorems settling the specification claims.
-/

namespace TickerDeck

/-- A single logical key, as routed by the switch on `key.toLowerCase()` in
`handleKeyPress`.  Digit keys carry their digit; every key that matches none
of the cases and is not a digit is `other`. -/
inductive Key where
  | b
  | s
  | c
  | enter
  | backspace
  | escape
  | digit : Fin 10 → Key
  | other
deriving DecidableEq, Repr

/-- The `HotkeyState` record of hotkeys.ts.  Digit buffers are lists of
digits (the source only ever appends keys matching the digit test), and the
stored timeout handle is an opaque `Nat` identifier. -/
structure HotkeyState where
  buyCount : Nat
  sellCount : Nat
  numberBuffer : List (Fin 10)
  isChangingShares : Bool
  shareChangeBuffer : List (Fin 10)
  disabled : Bool
  numberBufferTimeout : Option Nat := none
deriving DecidableEq, Repr

/-- `createInitialHotkeyState` of hotkeys.ts. -/
def createInitialHotkeyState : HotkeyState :=
  { buyCount := 0
    sellCount := 0
    numberBuffer := []
    isChangingShares := false
    shareChangeBuffer := []
    disabled := false
    numberBufferTimeout := none }

/-- The five injected effect callbacks, recorded as events. -/
inductive Effect where
  | onBuy : Nat → Effect
  | onSell : Nat → Effect
  | onTickerChange : Nat → Effect
  | onShareChange : Nat → Effect
  | onDisableTemporary
deriving DecidableEq, Repr

/-- What a scheduled `setTimeout` callback does when it fires.  Each closure
in the source only mutates the per-call state object it captured (and
possibly invokes one effect callback); none of them schedules further
timers. -/
inductive TimerAction where
  | buyFlush
  | sellFlush
  | clearNumberBuffer
  | clearDisabled
deriving DecidableEq, Repr

/-- A `setTimeout` request issued during one interpreter call: the fresh
handle it returns, the delay in milliseconds, and the callback body. -/
structure Sched where
  tid : Nat
  delay : Nat
  action : TimerAction
deriving DecidableEq, Repr

/-- Result of one `handleKeyPress` call: the returned state, the effect
callbacks invoked synchronously (in order), the `clearTimeout` handles
cancelled, the `setTimeout` requests issued, and the next fresh handle. -/
structure CallResult where
  state : HotkeyState
  effects : List Effect
  cancelled : List Nat
  scheduled : List Sched
  nextId : Nat
deriving DecidableEq, Repr

/-- `parseInt` on a buffer of digit characters (exact on every digit string
the interpreter ever parses; all its `parseInt` call sites are guarded to
non-empty digit strings). -/
def parseDigits (l : List (Fin 10)) : Nat :=
  l.foldl (fun a d => 10 * a + (d : Nat)) 0

/-- The suffix-retry loop of `processCascadingSelection`
(hotkeys.ts lines 225-240): for `i` from 1 to `currentBuffer.length`, test
`currentBuffer.substring(i) + newDigit` and accept the first candidate whose
value lies in `[1, totalTickers]`. -/
def cascadeFind (buf : List (Fin 10)) (newDigit : Fin 10) (totalTickers : Nat) :
    Option (List (Fin 10)) :=
  match buf with
  | [] => none
  | _ :: rest =>
    let cand := rest ++ [newDigit]
    if 1 ≤ parseDigits cand ∧ parseDigits cand ≤ totalTickers then some cand
    else cascadeFind rest newDigit totalTickers

/-- `processCascadingSelection` of hotkeys.ts (lines 202-255).  On an accept
it overwrites `numberBuffer`, fires `onTickerChange`, and arms a fresh
1500 ms clear timer; on total failure it clears `numberBuffer` but leaves
the (already cancelled) stored handle untouched, exactly as the source
does. -/
def processCascadingSelection (state : HotkeyState) (newDigit : Fin 10)
    (totalTickers : Nat) (fresh : Nat) : CallResult :=
  let fullNumber := state.numberBuffer ++ [newDigit]
  let fullNum := parseDigits fullNumber
  if 1 ≤ fullNum ∧ fullNum ≤ totalTickers then
    ⟨{ state with numberBuffer := fullNumber, numberBufferTimeout := some fresh },
      [.onTickerChange fullNum], [], [⟨fresh, 1500, .clearNumberBuffer⟩], fresh + 1⟩
  else
    match cascadeFind state.numberBuffer newDigit totalTickers with
    | some cand =>
      ⟨{ state with numberBuffer := cand, numberBufferTimeout := some fresh },
        [.onTickerChange (parseDigits cand)], [], [⟨fresh, 1500, .clearNumberBuffer⟩],
        fresh + 1⟩
    | none =>
      if 1 ≤ (newDigit : Nat) ∧ (newDigit : Nat) ≤ totalTickers then
        ⟨{ state with numberBuffer := [newDigit], numberBufferTimeout := some fresh },
          [.onTickerChange (newDigit : Nat)], [], [⟨fresh, 1500, .clearNumberBuffer⟩],
          fresh + 1⟩
      else
        ⟨{ state with numberBuffer := [] }, [], [], [], fresh⟩

/-- `handleKeyPress` of hotkeys.ts (lines 22-200).  `fresh` supplies the
next `setTimeout` handle.  Faithful details: the disabled early-return hands
back the very same state; the buy/sell flush and disable-release timers are
scheduled with their handles discarded; the digit branch cancels the stored
buffer timer without resetting the field, so clear-fallback paths retain the
stale handle. -/
def handleKeyPress (key : Key) (state : HotkeyState) (totalTickers : Nat)
    (fresh : Nat) : CallResult :=
  if state.disabled then
    ⟨state, [], [], [], fresh⟩
  else
    match key with
    | .b =>
      ⟨{ state with
          buyCount := state.buyCount + 1
          sellCount := 0
          numberBuffer := []
          numberBufferTimeout := none },
        [], state.numberBufferTimeout.toList, [⟨fresh, 100, .buyFlush⟩], fresh + 1⟩
    | .s =>
      ⟨{ state with
          sellCount := state.sellCount + 1
          buyCount := 0
          numberBuffer := []
          numberBufferTimeout := none },
        [], state.numberBufferTimeout.toList, [⟨fresh, 100, .sellFlush⟩], fresh + 1⟩
    | .c =>
      ⟨{ state with
          isChangingShares := true
          shareChangeBuffer := []
          buyCount := 0
          sellCount := 0
          numberBuffer := []
          numberBufferTimeout := none },
        [], state.numberBufferTimeout.toList, [], fresh⟩
    | .enter =>
      if state.isChangingShares ∧ state.shareChangeBuffer ≠ [] then
        let shares := parseDigits state.shareChangeBuffer
        ⟨{ state with isChangingShares := false, shareChangeBuffer := [] },
          if 0 < shares then [.onShareChange shares] else [], [], [], fresh⟩
      else if state.numberBuffer ≠ [] then
        let tickerNum := parseDigits state.numberBuffer
        ⟨{ state with numberBuffer := [], numberBufferTimeout := none },
          if 1 ≤ tickerNum ∧ tickerNum ≤ totalTickers then [.onTickerChange tickerNum]
          else [],
          state.numberBufferTimeout.toList, [], fresh⟩
      else
        ⟨state, [], [], [], fresh⟩
    | .backspace | .escape =>
      if state.isChangingShares then
        ⟨{ state with shareChangeBuffer := state.shareChangeBuffer.dropLast },
          [], [], [], fresh⟩
      else if state.numberBuffer ≠ [] then
        let nb := state.numberBuffer.dropLast
        if nb ≠ [] then
          ⟨{ state with numberBuffer := nb, numberBufferTimeout := some fresh },
            [], state.numberBufferTimeout.toList,
            [⟨fresh, 3000, .clearNumberBuffer⟩], fresh + 1⟩
        else
          ⟨{ state with numberBuffer := [], numberBufferTimeout := none },
            [], state.numberBufferTimeout.toList, [], fresh⟩
      else
        ⟨{ state with disabled := true },
          [.onDisableTemporary], [], [⟨fresh, 500, .clearDisabled⟩], fresh + 1⟩
    | .digit d =>
      if state.isChangingShares then
        ⟨{ state with
            shareChangeBuffer := state.shareChangeBuffer ++ [d]
            buyCount := 0
            sellCount := 0 },
          [], [], [], fresh⟩
      else
        let cancelled := state.numberBufferTimeout.toList
        if 1 ≤ (d : Nat) ∧ (d : Nat) ≤ totalTickers then
          let extendedNum := parseDigits (state.numberBuffer ++ [d])
          if extendedNum ≤ totalTickers ∧ state.numberBuffer ≠ [] then
            ⟨{ state with
                numberBuffer := state.numberBuffer ++ [d]
                numberBufferTimeout := some fresh
                buyCount := 0
                sellCount := 0 },
              [.onTickerChange extendedNum], cancelled,
              [⟨fresh, 1500, .clearNumberBuffer⟩], fresh + 1⟩
          else if state.numberBuffer ≠ [] then
            let r := processCascadingSelection state d totalTickers fresh
            ⟨{ r.state with buyCount := 0, sellCount := 0 },
              r.effects, cancelled, r.scheduled, r.nextId⟩
          else
            ⟨{ state with
                numberBuffer := [d]
                numberBufferTimeout := some fresh
                buyCount := 0
                sellCount := 0 },
              [.onTickerChange (d : Nat)], cancelled,
              [⟨fresh, 1500, .clearNumberBuffer⟩], fresh + 1⟩
        else
          if state.numberBuffer ≠ [] then
            let r := processCascadingSelection state d totalTickers fresh
            ⟨{ r.state with buyCount := 0, sellCount := 0 },
              r.effects, cancelled, r.scheduled, r.nextId⟩
          else
            ⟨{ state with
                numberBuffer := []
                buyCount := 0
                sellCount := 0 },
              [], cancelled, [], fresh⟩
    | .other =>
      ⟨state, [], [], [], fresh⟩

/-!
Operational model of the host event loop (KeyboardHandler.tsx /
TradingPopup.tsx): each non-disabled call allocates a fresh copy of the
state (`const newState = { ...state }`), every `setTimeout` closure
captures exactly that copy, and the host keeps `stateRef.current` pointing
at the most recently returned copy.  Timer callbacks therefore mutate the
snapshot object of the call that scheduled them, which is the live object
only if no later key press has replaced it.
-/

/-- A pending `setTimeout`: its handle, the heap index of the state object
its closure captured, its absolute fire time, and its body. -/
structure TimerRec where
  tid : Nat
  obj : Nat
  fireAt : Nat
  action : TimerAction
deriving DecidableEq, Repr

/-- The host event loop: the heap of state objects that interpreter calls
have allocated, the index of the object currently held by the host
(`stateRef.current`), the pending timers, the fresh-handle counter, the
clock in milliseconds, and the log of effect-callback invocations. -/
structure World where
  heap : List HotkeyState
  cur : Nat
  timers : List TimerRec
  nextTid : Nat
  clock : Nat
  effects : List Effect
deriving DecidableEq, Repr

/-- The state object the host currently holds. -/
def curState (w : World) : HotkeyState :=
  w.heap.getD w.cur createInitialHotkeyState

/-- A session starts from `createInitialHotkeyState` with no pending
timers. -/
def initialWorld : World :=
  { heap := [createInitialHotkeyState]
    cur := 0
    timers := []
    nextTid := 0
    clock := 0
    effects := [] }

/-- Deliver one key event to the interpreter.  A disabled state is returned
unchanged by reference, so the world does not change; otherwise the
returned copy is allocated on the heap, the requested `clearTimeout`s are
honoured, and each `setTimeout` is registered against the new copy (the
object its closure captured). -/
def pressKey (w : World) (key : Key) (totalTickers : Nat) : World :=
  let s := curState w
  if s.disabled then w
  else
    let r := handleKeyPress key s totalTickers w.nextTid
    let objId := w.heap.length
    { heap := w.heap ++ [r.state]
      cur := objId
      timers := w.timers.filter (fun t => !(r.cancelled.contains t.tid))
        ++ r.scheduled.map (fun sc => ⟨sc.tid, objId, w.clock + sc.delay, sc.action⟩)
      nextTid := r.nextId
      clock := w.clock
      effects := w.effects ++ r.effects }

/-- Run one timer callback on the snapshot object it captured
(hotkeys.ts lines 49-54, 66-71, 121-124, 130-132, 156-159, 172-175,
217-220, 234-237, 248-251). -/
def fireTimer (w : World) (tr : TimerRec) : World :=
  let obj := w.heap.getD tr.obj createInitialHotkeyState
  match tr.action with
  | .buyFlush =>
    if 0 < obj.buyCount then
      { w with
          heap := w.heap.set tr.obj { obj with buyCount := 0 }
          effects := w.effects ++ [.onBuy obj.buyCount] }
    else w
  | .sellFlush =>
    if 0 < obj.sellCount then
      { w with
          heap := w.heap.set tr.obj { obj with sellCount := 0 }
          effects := w.effects ++ [.onSell obj.sellCount] }
    else w
  | .clearNumberBuffer =>
    { w with
        heap := w.heap.set tr.obj
          { obj with numberBuffer := [], numberBufferTimeout := none } }
  | .clearDisabled =>
    { w with heap := w.heap.set tr.obj { obj with disabled := false } }

/-- The earliest pending timer (fire time, then creation order). -/
def nextDue (ts : List TimerRec) : Option TimerRec :=
  ts.foldl
    (fun acc t =>
      match acc with
      | none => some t
      | some u =>
        if t.fireAt < u.fireAt ∨ (t.fireAt = u.fireAt ∧ t.tid < u.tid) then some t
        else some u)
    none

/-- Fire, in order, every pending timer due at or before time `t`
(no callback in the source schedules further timers, so the pending-list
length is sufficient fuel). -/
def runTimers (w : World) (t : Nat) : Nat → World
  | 0 => w
  | fuel + 1 =>
    match nextDue w.timers with
    | none => w
    | some tr =>
      if tr.fireAt ≤ t then
        runTimers
          { fireTimer w tr with
              timers := w.timers.filter (fun x => x.tid != tr.tid)
              clock := tr.fireAt }
          t fuel
      else w

/-- Advance the event loop to time `t`, firing every timer due on the
way. -/
def advanceTo (w : World) (t : Nat) : World :=
  { runTimers w t w.timers.length with clock := t }

/-- Deliver a key event at time `t`: timers due before the event fire
first. -/
def pressAt (w : World) (t : Nat) (key : Key) (totalTickers : Nat) : World :=
  pressKey (advanceTo w t) key totalTickers

/-- Whether a key is a digit key (the `/\d/.test(key)` routing test, for
single logical keys). -/
def isDigitKey : Key → Bool
  | .digit _ => true
  | _ => false

/-- The callbacks passed in TradingPopup.tsx lines 95-104 while
`isChangingShares`: buy, sell and ticker callbacks are no-ops, only
`onShareChange` and the close callback are live. -/
def suppressTradeEffects (effs : List Effect) : List Effect :=
  effs.filter (fun e =>
    match e with
    | .onShareChange _ => true
    | .onDisableTemporary => true
    | _ => false)

/-- The wrappers of TradingPopup.tsx lines 119-135: buy, sell and ticker
callbacks are dropped when `isChangingShares` was set at call time. -/
def filterShareMode (isChanging : Bool) (effs : List Effect) : List Effect :=
  if isChanging then
    effs.filter (fun e =>
      match e with
      | .onBuy _ => false
      | .onSell _ => false
      | .onTickerChange _ => false
      | _ => true)
  else effs

/-- The keydown router of TradingPopup.tsx (lines 78-144), for events that
do not target a text-entry field.  While `isChangingShares`, a buy or sell
key is dropped before reaching `handleKeyPress` (lines 88-113); a digit key
is forwarded with the trade callbacks suppressed; every other key reaches
the interpreter with the share-mode wrappers of lines 119-135. -/
def tradingPopupKeydown (key : Key) (s : HotkeyState) (totalTickers : Nat)
    (fresh : Nat) : CallResult :=
  if s.isChangingShares ∧ (key = .b ∨ key = .s ∨ isDigitKey key) then
    if isDigitKey key ∨ key = .enter ∨ key = .backspace ∨ key = .escape then
      let r := handleKeyPress key s totalTickers fresh
      { r with effects := suppressTradeEffects r.effects }
    else
      ⟨s, [], [], [], fresh⟩
  else
    let r := handleKeyPress key s totalTickers fresh
    { r with effects := filterShareMode s.isChangingShares r.effects }

/-!
Definitions written from the specification text of §4.2 and claim C2
(cascading ticker resolution), to be compared with the source algorithm.
-/

/-- The candidate list of the claim: for `i` from 1 to `len(numberBuffer)`,
the string `numberBuffer[i:] + d`. -/
def suffixCandidates (b : List (Fin 10)) (d : Fin 10) : List (List (Fin 10)) :=
  (List.range b.length).map (fun j => b.drop (j + 1) ++ [d])

/-- The first suffix candidate whose value lies in `[1, N]`, as the claim
words it. -/
def specFirstSuffix (b : List (Fin 10)) (d : Fin 10) (N : Nat) :
    Option (List (Fin 10)) :=
  (suffixCandidates b d).find? (fun c => decide (1 ≤ parseDigits c ∧ parseDigits c ≤ N))

/-- The resolution claimed for a digit key `d` against buffer `b` and
`totalTickers = N`: `some c` means the new buffer is `c` and
`onTickerChange (parseDigits c)` fires; `none` means the buffer is cleared
with no selection. -/
def cascadeSpec (b : List (Fin 10)) (d : Fin 10) (N : Nat) :
    Option (List (Fin 10)) :=
  if 1 ≤ parseDigits (b ++ [d]) ∧ parseDigits (b ++ [d]) ≤ N then some (b ++ [d])
  else
    match specFirstSuffix b d N with
    | some c => some c
    | none => if 1 ≤ (d : Nat) ∧ (d : Nat) ≤ N then some [d] else none

/-- Five buy presses within one 100 ms window (at 0, 10, 20, 30 and 40 ms)
with `totalTickers = 5`. -/
def rapidBuyWorld : World :=
  pressAt (pressAt (pressAt (pressAt (pressAt initialWorld 0 .b 5) 10 .b 5) 20 .b 5)
    30 .b 5) 40 .b 5

/-- The key sequence 1, 2, 3 typed quickly with `totalTickers = 12`. -/
def cascadeTraceWorld : World :=
  pressAt (pressAt (pressAt initialWorld 0 (.digit 1) 12) 50 (.digit 2) 12)
    100 (.digit 3) 12

/-- Digit 7 accepted from an empty buffer with `totalTickers = 20`. -/
def digitAcceptWorld : World :=
  pressAt initialWorld 0 (.digit 7) 20

/-- A session already in share-edit mode. -/
def shareModeWorld : World :=
  { heap := [{ createInitialHotkeyState with isChangingShares := true }]
    cur := 0
    timers := []
    nextTid := 0
    clock := 0
    effects := [] }

/-!
Theorems settling the claims, with shared helper lemmas first.
-/

/-- With no valid ticker index, the suffix-retry loop never accepts. -/
theorem cascadeFind_zero (b : List (Fin 10)) (d : Fin 10) :
    cascadeFind b d 0 = none := by
  induction b with
  | nil => rfl
  | cons a rest ih =>
    rw [cascadeFind]
    simp only [ih, if_neg (by omega : ¬(1 ≤ parseDigits (rest ++ [d]) ∧ parseDigits (rest ++ [d]) ≤ 0))]

/-- Claim C1 (code_bug evidence): every buy press copies the state, and its
100 ms flush closure reads that private copy, which later presses never
zero.  Five buy presses inside one 100 ms window with `totalTickers = 5`
therefore produce five `onBuy` calls with arguments 1, 2, 3, 4, 5 — not the
single `onBuy(5)` the specification claims. -/
theorem buy_debounce_collapse_fails :
    (advanceTo rapidBuyWorld 10000).effects
      = [.onBuy 1, .onBuy 2, .onBuy 3, .onBuy 4, .onBuy 5] := by decide

/-- Claim C6: with `disabled = true`, `handleKeyPress` returns the state it
was given, fires no effect, cancels no timer and schedules none, for every
key; at the event-loop level the whole world is unchanged. -/
theorem disabled_key_is_noop :
    (∀ (key : Key) (s : HotkeyState) (N fresh : Nat), s.disabled = true →
        handleKeyPress key s N fresh = ⟨s, [], [], [], fresh⟩)
    ∧ (∀ (w : World) (key : Key) (N : Nat), (curState w).disabled = true →
        pressKey w key N = w) := by
  constructor
  · intro key s N fresh h
    simp [handleKeyPress, h]
  · intro w key N h
    simp [pressKey, h]

/-- Witness for C6 at a concrete disabled state. -/
theorem disabled_key_is_noop_witness :
    handleKeyPress .b { createInitialHotkeyState with disabled := true } 5 0
      = ⟨{ createInitialHotkeyState with disabled := true }, [], [], [], 0⟩ :=
  disabled_key_is_noop.1 .b { createInitialHotkeyState with disabled := true } 5 0 rfl

/-- Claim C10: with share-edit mode on but both buffers empty, the confirm
key is a complete no-op (the state comes back structurally equal, share
mode still on, no effect, no timer traffic); and the confirm key can only
turn `isChangingShares` off when `shareChangeBuffer` is non-empty. -/
theorem confirm_key_noop_on_empty_buffers :
    (∀ (s : HotkeyState) (N fresh : Nat),
        s.disabled = false → s.isChangingShares = true →
        s.shareChangeBuffer = [] → s.numberBuffer = [] →
        handleKeyPress .enter s N fresh = ⟨s, [], [], [], fresh⟩)
    ∧ (∀ (s : HotkeyState) (N fresh : Nat),
        s.disabled = false → s.isChangingShares = true →
        (handleKeyPress .enter s N fresh).state.isChangingShares = false →
        s.shareChangeBuffer ≠ []) := by
  constructor
  · intro s N fresh hd hc hs hn
    simp [handleKeyPress, hd, hs, hn]
  · intro s N fresh hd hc hres
    by_contra hsb
    rcases eq_or_ne s.numberBuffer [] with hn | hn <;>
      simp [handleKeyPress, hd, hc, hsb, hn] at hres

/-- Witness for C10 at a concrete share-mode state. -/
theorem confirm_key_noop_on_empty_buffers_witness :
    handleKeyPress .enter { createInitialHotkeyState with isChangingShares := true } 12 7
      = ⟨{ createInitialHotkeyState with isChangingShares := true }, [], [], [], 7⟩ :=
  confirm_key_noop_on_empty_buffers.1
    { createInitialHotkeyState with isChangingShares := true } 12 7 rfl rfl rfl rfl

/-- Claim C9: a confirm press on an invalid active buffer is silently
absorbed — an all-zero share buffer fires nothing and leaves share mode
with the buffer cleared, and an out-of-range ticker buffer fires nothing,
is cleared, and its expiry timer is cancelled; the interpreter is total,
so no exception path exists. -/
theorem confirm_parse_failure_absorbed (s : HotkeyState) (N fresh : Nat)
    (hd : s.disabled = false) :
    (s.isChangingShares = true → s.shareChangeBuffer ≠ [] →
        parseDigits s.shareChangeBuffer = 0 →
        handleKeyPress .enter s N fresh
          = ⟨{ s with isChangingShares := false, shareChangeBuffer := [] },
              [], [], [], fresh⟩)
    ∧ ((s.isChangingShares = false ∨ s.shareChangeBuffer = []) →
        s.numberBuffer ≠ [] →
        ¬(1 ≤ parseDigits s.numberBuffer ∧ parseDigits s.numberBuffer ≤ N) →
        handleKeyPress .enter s N fresh
          = ⟨{ s with numberBuffer := [], numberBufferTimeout := none },
              [], s.numberBufferTimeout.toList, [], fresh⟩) := by
  constructor
  · intro hc hb hz
    simp [handleKeyPress, hd, hc, hb, hz]
  · intro hcs hb hv
    rcases hcs with hc | hc <;> simp [handleKeyPress, hd, hc, hb, hv]

/-- Witness for C9: confirm on buffer 99 with 12 tickers, and on share
buffer 00. -/
theorem confirm_parse_failure_absorbed_witness :
    handleKeyPress .enter
        { createInitialHotkeyState with numberBuffer := [9, 9], numberBufferTimeout := some 4 }
        12 7
      = ⟨createInitialHotkeyState, [], [4], [], 7⟩ :=
  (confirm_parse_failure_absorbed
      { createInitialHotkeyState with numberBuffer := [9, 9], numberBufferTimeout := some 4 }
      12 7 rfl).2 (Or.inl rfl) (by decide) (by decide)

/-- Counterexample to claim C3 as stated: from a share-edit state, one
interpreter call on the buy key raises `buyCount` from 0 to 1, and letting
the scheduled flush fire produces an `onBuy 1` call — `handleKeyPress` has
no share-mode guard in its buy case. -/
theorem share_mode_buy_key_counterexample :
    (curState (pressKey shareModeWorld .b 5)).buyCount = 1
    ∧ (advanceTo (pressKey shareModeWorld .b 5) 1000).effects = [.onBuy 1] := by
  decide

/-- Claim C3 as amended: share-edit isolation is enforced by the keydown
router of TradingPopup.tsx, not by the interpreter — while
`isChangingShares` the router drops the buy key before it reaches
`handleKeyPress`, leaving the state untouched with no effects and no timer
traffic; `handleKeyPress` itself increments `buyCount` and schedules a
100 ms buy flush even in share-edit mode, touching neither
`isChangingShares` nor `shareChangeBuffer`. -/
theorem share_mode_buy_key_isolation (s : HotkeyState) (N fresh : Nat)
    (hc : s.isChangingShares = true) :
    tradingPopupKeydown .b s N fresh = ⟨s, [], [], [], fresh⟩
    ∧ (s.disabled = false →
        (handleKeyPress .b s N fresh).state.buyCount = s.buyCount + 1
        ∧ (handleKeyPress .b s N fresh).state.isChangingShares = true
        ∧ (handleKeyPress .b s N fresh).state.shareChangeBuffer = s.shareChangeBuffer
        ∧ (handleKeyPress .b s N fresh).scheduled = [⟨fresh, 100, .buyFlush⟩]) := by
  constructor
  · simp [tradingPopupKeydown, hc, isDigitKey]
  · intro hd
    simp [handleKeyPress, hd, hc]

/-- Witness for the amended C3 at a concrete share-mode state. -/
theorem share_mode_buy_key_isolation_witness :
    tradingPopupKeydown .b { createInitialHotkeyState with isChangingShares := true } 5 0
      = ⟨{ createInitialHotkeyState with isChangingShares := true }, [], [], [], 0⟩ :=
  (share_mode_buy_key_isolation
    { createInitialHotkeyState with isChangingShares := true } 5 0 rfl).1

/-- Counterexample to claim C4 as stated: backspace on buffer 12 re-arms
the buffer expiry timer with a 3000 ms delay (hotkeys.ts line 124), not the
1500 ms duration of the digit-entry path. -/
theorem cancel_key_timer_duration_counterexample :
    (handleKeyPress .backspace
        { createInitialHotkeyState with numberBuffer := [1, 2], numberBufferTimeout := some 0 }
        12 1).scheduled = [⟨1, 3000, .clearNumberBuffer⟩]
    ∧ (⟨1, 3000, .clearNumberBuffer⟩ : Sched).delay ≠ 1500 := by decide

/-- Claim C4 as amended: on a cancel key (Backspace or Escape) in ticker
mode with a non-empty buffer, the last digit is removed, the outstanding
expiry timer handle is cancelled, no effect fires, and — if the shortened
buffer is still non-empty — a fresh expiry timer is armed with a 3000 ms
delay (not the 1500 ms of the digit-entry path); if the buffer became
empty, no timer is armed and the stored handle is dropped. -/
theorem cancel_key_edits_buffer (key : Key) (s : HotkeyState) (N fresh : Nat)
    (hk : key = Key.backspace ∨ key = Key.escape)
    (hd : s.disabled = false) (hc : s.isChangingShares = false)
    (hb : s.numberBuffer ≠ []) :
    (handleKeyPress key s N fresh).state.numberBuffer = s.numberBuffer.dropLast
    ∧ (handleKeyPress key s N fresh).cancelled = s.numberBufferTimeout.toList
    ∧ (handleKeyPress key s N fresh).effects = []
    ∧ (s.numberBuffer.dropLast ≠ [] →
        (handleKeyPress key s N fresh).scheduled = [⟨fresh, 3000, .clearNumberBuffer⟩]
        ∧ (handleKeyPress key s N fresh).state.numberBufferTimeout = some fresh)
    ∧ (s.numberBuffer.dropLast = [] →
        (handleKeyPress key s N fresh).scheduled = []
        ∧ (handleKeyPress key s N fresh).state.numberBufferTimeout = none) := by
  rcases hk with hk | hk <;> subst hk <;>
    rcases eq_or_ne s.numberBuffer.dropLast [] with h | h <;>
      simp [handleKeyPress, hd, hc, hb, h]

/-- Witness for the amended C4: backspace on buffer 12. -/
theorem cancel_key_edits_buffer_witness :
    (handleKeyPress .backspace
        { createInitialHotkeyState with numberBuffer := [1, 2], numberBufferTimeout := some 0 }
        12 1).state.numberBuffer = [1]
    ∧ (handleKeyPress .backspace
        { createInitialHotkeyState with numberBuffer := [1, 2], numberBufferTimeout := some 0 }
        12 1).cancelled = [0] := by
  have h := cancel_key_edits_buffer .backspace
    { createInitialHotkeyState with numberBuffer := [1, 2], numberBufferTimeout := some 0 }
    12 1 (Or.inl rfl) rfl rfl (by decide)
  exact ⟨h.1, h.2.1⟩

/-- Counterexample to claim C5 as stated: with `totalTickers = 0`, a digit
key on a non-disabled state with `buyCount = 3` returns a state with
`buyCount = 0`, which is not structurally equal to the input. -/
theorem digit_key_zero_tickers_counterexample :
    (handleKeyPress (.digit 5) { createInitialHotkeyState with buyCount := 3 } 0 0).state
      ≠ { createInitialHotkeyState with buyCount := 3 } := by decide

/-- Claim C5 as amended: with `totalTickers = 0`, a digit key on a
non-disabled state fires no effect callback and makes no selection, but it
is not a structural no-op: in ticker mode it clears `numberBuffer`, cancels
any pending expiry timer, and zeroes `buyCount` and `sellCount`; in
share-edit mode it appends the digit to `shareChangeBuffer` and zeroes both
counters. -/
theorem digit_key_zero_tickers (s : HotkeyState) (d : Fin 10) (fresh : Nat)
    (hd : s.disabled = false) :
    (s.isChangingShares = false →
        handleKeyPress (.digit d) s 0 fresh
          = ⟨{ s with numberBuffer := [], buyCount := 0, sellCount := 0 },
              [], s.numberBufferTimeout.toList, [], fresh⟩)
    ∧ (s.isChangingShares = true →
        handleKeyPress (.digit d) s 0 fresh
          = ⟨{ s with shareChangeBuffer := s.shareChangeBuffer ++ [d], buyCount := 0, sellCount := 0 },
              [], [], [], fresh⟩) := by
  constructor
  · intro hc
    rcases eq_or_ne s.numberBuffer [] with hn | hn
    · simp [handleKeyPress, hd, hc, hn]
      omega
    · have hcasc : processCascadingSelection s d 0 fresh
          = ⟨{ s with numberBuffer := [] }, [], [], [], fresh⟩ := by
        simp only [processCascadingSelection, cascadeFind_zero]
        rw [if_neg (by omega), if_neg (by omega)]
      simp [handleKeyPress, hd, hc, hn, hcasc]
      omega
  · intro hc
    simp [handleKeyPress, hd, hc]

/-- Witness for the amended C5 at a concrete state. -/
theorem digit_key_zero_tickers_witness :
    handleKeyPress (.digit 5) { createInitialHotkeyState with buyCount := 3 } 0 0
      = ⟨createInitialHotkeyState, [], [], [], 0⟩ :=
  (digit_key_zero_tickers { createInitialHotkeyState with buyCount := 3 } 5 0 rfl).1 rfl

/-- Counterexample to claim C7 as stated: on a disabled state with
`buyCount = 0` (so the claim's disjunction holds) and `sellCount = 7`,
processing the buy key leaves `sellCount` at 7, not 0 — the disabled
early-return skips the reset. -/
theorem buy_key_mutual_exclusion_counterexample :
    ({ createInitialHotkeyState with sellCount := 7, disabled := true } : HotkeyState).buyCount = 0
    ∧ (handleKeyPress .b { createInitialHotkeyState with sellCount := 7, disabled := true }
        5 0).state.sellCount = 7
    ∧ (handleKeyPress .b { createInitialHotkeyState with sellCount := 7, disabled := true }
        5 0).state.sellCount ≠ 0 := by decide

/-- Claim C7 as amended: any `handleKeyPress` call preserves the invariant
that at least one trade counter is 0; and on non-disabled states the buy
key always zeroes `sellCount` while the sell key always zeroes `buyCount`,
regardless of their prior values (a disabled no-op call leaves both
counters untouched instead). -/
theorem trade_counters_mutually_exclusive (key : Key) (s : HotkeyState) (N fresh : Nat) :
    ((s.buyCount = 0 ∨ s.sellCount = 0) →
        ((handleKeyPress key s N fresh).state.buyCount = 0
          ∨ (handleKeyPress key s N fresh).state.sellCount = 0))
    ∧ (s.disabled = false → (handleKeyPress .b s N fresh).state.sellCount = 0)
    ∧ (s.disabled = false → (handleKeyPress .s s N fresh).state.buyCount = 0) := by
  refine ⟨?_, ?_, ?_⟩
  · intro h
    by_cases hd : s.disabled = true
    · simp [handleKeyPress, hd, h]
    · rw [Bool.not_eq_true] at hd
      cases key <;>
        simp [handleKeyPress, hd, processCascadingSelection] <;>
        first
        | exact h
        | (split_ifs <;> simp_all)
  · intro hd
    simp [handleKeyPress, hd]
  · intro hd
    simp [handleKeyPress, hd]

/-- Witness for the amended C7: a buy press on a live state with
`sellCount = 7`. -/
theorem trade_counters_mutually_exclusive_witness :
    (handleKeyPress .b { createInitialHotkeyState with sellCount := 7 } 5 0).state.sellCount
      = 0 :=
  (trade_counters_mutually_exclusive .b
    { createInitialHotkeyState with sellCount := 7 } 5 0).2.1 rfl

/-- Every timer armed by the cascading helper is a 1500 ms buffer clear. -/
theorem processCascadingSelection_scheduled (s : HotkeyState) (d : Fin 10) (N fresh : Nat) :
    ∀ sc ∈ (processCascadingSelection s d N fresh).scheduled,
      sc.delay = 1500 ∧ sc.action = TimerAction.clearNumberBuffer := by
  intro sc h
  rcases hcf : cascadeFind s.numberBuffer d N with _ | cand <;>
    simp only [processCascadingSelection, hcf] at h <;>
    split_ifs at h <;>
    simp_all

/-- Claim C8: accepting digit 7 with `totalTickers = 20` fires
`onTickerChange 7` synchronously and arms a single 1500 ms clear timer;
letting it expire clears the buffer and its handle without any further
effect.  In general, every timer a digit key arms is a 1500 ms buffer
clear, and firing a buffer-clear timer never appends to the effect log. -/
theorem digit_expiry_effect_free :
    (digitAcceptWorld.effects = [.onTickerChange 7]
      ∧ digitAcceptWorld.timers = [⟨0, 1, 1500, .clearNumberBuffer⟩]
      ∧ (advanceTo digitAcceptWorld 5000).effects = [.onTickerChange 7]
      ∧ (curState (advanceTo digitAcceptWorld 5000)).numberBuffer = []
      ∧ (curState (advanceTo digitAcceptWorld 5000)).numberBufferTimeout = none)
    ∧ (∀ (s : HotkeyState) (d : Fin 10) (N fresh : Nat),
        ∀ sc ∈ (handleKeyPress (.digit d) s N fresh).scheduled,
          sc.delay = 1500 ∧ sc.action = TimerAction.clearNumberBuffer)
    ∧ (∀ (w : World) (tr : TimerRec), tr.action = TimerAction.clearNumberBuffer →
        (fireTimer w tr).effects = w.effects) := by
  refine ⟨by decide, ?_, ?_⟩
  · intro s d N fresh sc h
    by_cases hd : s.disabled = true
    · simp [handleKeyPress, hd] at h
    · rw [Bool.not_eq_true] at hd
      by_cases hc : s.isChangingShares = true
      · simp [handleKeyPress, hd, hc] at h
      · rw [Bool.not_eq_true] at hc
        simp only [handleKeyPress, hd, hc] at h
        simp only [Bool.false_eq_true, if_false] at h
        split_ifs at h <;>
          first
          | exact processCascadingSelection_scheduled s d N fresh sc h
          | simp_all
  · intro w tr h
    rcases tr with ⟨tid, obj, fa, act⟩
    simp only at h
    subst h
    simp [fireTimer]

/-- Witness for C8's universally quantified parts. -/
theorem digit_expiry_effect_free_witness :
    (fireTimer initialWorld ⟨0, 0, 1500, .clearNumberBuffer⟩).effects
      = initialWorld.effects :=
  digit_expiry_effect_free.2.2 initialWorld ⟨0, 0, 1500, .clearNumberBuffer⟩ rfl

/-- Appending a digit multiplies the parsed value by ten and adds it. -/
theorem parseDigits_append (b : List (Fin 10)) (d : Fin 10) :
    parseDigits (b ++ [d]) = 10 * parseDigits b + (d : Nat) := by
  simp [parseDigits, List.foldl_append]

/-- A one-digit buffer parses to its digit. -/
theorem parseDigits_singleton (d : Fin 10) : parseDigits [d] = (d : Nat) := by
  simp [parseDigits]

/-- Peeling one character off the front of the buffer peels the head
candidate off the claim's suffix-candidate list. -/
theorem suffixCandidates_cons (a : Fin 10) (b : List (Fin 10)) (d : Fin 10) :
    suffixCandidates (a :: b) d = (b ++ [d]) :: suffixCandidates b d := by
  unfold suffixCandidates
  rw [List.length_cons, List.range_succ_eq_map, List.map_cons, List.map_map]
  simp [Function.comp, List.drop_succ_cons]

/-- The source's suffix-retry loop computes exactly the first valid
candidate of the claim's suffix list. -/
theorem cascadeFind_eq_specFirstSuffix (b : List (Fin 10)) (d : Fin 10) (N : Nat) :
    cascadeFind b d N = specFirstSuffix b d N := by
  induction b with
  | nil => rfl
  | cons a rest ih =>
    rw [cascadeFind, specFirstSuffix, suffixCandidates_cons]
    by_cases h : 1 ≤ parseDigits (rest ++ [d]) ∧ parseDigits (rest ++ [d]) ≤ N
    · rw [if_pos h]
      symm
      apply List.find?_cons_of_pos
      simpa using h
    · rw [if_neg h]
      have hcons : List.find? (fun c => decide (1 ≤ parseDigits c ∧ parseDigits c ≤ N))
          ((rest ++ [d]) :: suffixCandidates rest d)
          = List.find? (fun c => decide (1 ≤ parseDigits c ∧ parseDigits c ≤ N))
            (suffixCandidates rest d) := by
        apply List.find?_cons_of_neg
        simpa using h
      rw [hcons]
      exact ih

/-- Claim C2: in ticker mode, a digit key resolves exactly as the claim's
cascading algorithm prescribes — extend the buffer if the extended value is
in range, otherwise take the first valid suffix-plus-digit candidate,
otherwise the digit alone if valid, otherwise clear with no selection —
with `onTickerChange` fired for the accepted value; and typing 1, 2, 3
with `totalTickers = 12` selects 1, then 12, then 3, in order. -/
theorem digit_cascading_resolution :
    (∀ (s : HotkeyState) (d : Fin 10) (N fresh : Nat),
        s.disabled = false → s.isChangingShares = false →
        match cascadeSpec s.numberBuffer d N with
        | some c =>
            (handleKeyPress (.digit d) s N fresh).state.numberBuffer = c
            ∧ (handleKeyPress (.digit d) s N fresh).effects
                = [.onTickerChange (parseDigits c)]
        | none =>
            (handleKeyPress (.digit d) s N fresh).state.numberBuffer = []
            ∧ (handleKeyPress (.digit d) s N fresh).effects = [])
    ∧ cascadeTraceWorld.effects
        = [.onTickerChange 1, .onTickerChange 12, .onTickerChange 3] := by
  constructor
  · intro s d N fresh hd hc
    rcases eq_or_ne s.numberBuffer [] with hn | hn
    · by_cases h1 : 1 ≤ (d : Nat) ∧ (d : Nat) ≤ N
      · have hspec : cascadeSpec s.numberBuffer d N = some [d] := by
          rw [hn]
          unfold cascadeSpec
          rw [if_pos (by simpa [parseDigits_singleton] using h1)]
          simp
        rw [hspec]
        simp [handleKeyPress, hd, hc, hn, h1, parseDigits_singleton]
      · have hspec : cascadeSpec s.numberBuffer d N = none := by
          rw [hn]
          unfold cascadeSpec
          rw [if_neg (by simpa [parseDigits_singleton] using h1)]
          simp [specFirstSuffix, suffixCandidates, h1]
        rw [hspec]
        simp [handleKeyPress, hd, hc, hn, h1]
    · by_cases h1 : 1 ≤ (d : Nat) ∧ (d : Nat) ≤ N
      · by_cases hle : parseDigits (s.numberBuffer ++ [d]) ≤ N
        · have hspec : cascadeSpec s.numberBuffer d N = some (s.numberBuffer ++ [d]) := by
            unfold cascadeSpec
            rw [if_pos ⟨by rw [parseDigits_append]; omega, hle⟩]
          rw [hspec]
          simp [handleKeyPress, hd, hc, hn, h1, hle]
        · have hful : ¬(1 ≤ parseDigits (s.numberBuffer ++ [d])
              ∧ parseDigits (s.numberBuffer ++ [d]) ≤ N) := by omega
          rcases hcf : cascadeFind s.numberBuffer d N with _ | cand
          · have hspec : cascadeSpec s.numberBuffer d N = some [d] := by
              unfold cascadeSpec
              rw [if_neg hful, ← cascadeFind_eq_specFirstSuffix, hcf, if_pos h1]
            have hr : processCascadingSelection s d N fresh
                = ⟨{ s with numberBuffer := [d], numberBufferTimeout := some fresh },
                    [.onTickerChange (d : Nat)], [],
                    [⟨fresh, 1500, .clearNumberBuffer⟩], fresh + 1⟩ := by
              simp only [processCascadingSelection, hcf]
              rw [if_neg hful, if_pos h1]
            rw [hspec]
            simp [handleKeyPress, hd, hc, hn, h1, hle, hr, parseDigits_singleton]
          · have hspec : cascadeSpec s.numberBuffer d N = some cand := by
              unfold cascadeSpec
              rw [if_neg hful, ← cascadeFind_eq_specFirstSuffix, hcf]
            have hr : processCascadingSelection s d N fresh
                = ⟨{ s with numberBuffer := cand, numberBufferTimeout := some fresh },
                    [.onTickerChange (parseDigits cand)], [],
                    [⟨fresh, 1500, .clearNumberBuffer⟩], fresh + 1⟩ := by
              simp only [processCascadingSelection, hcf]
              rw [if_neg hful]
            rw [hspec]
            simp [handleKeyPress, hd, hc, hn, h1, hle, hr]
      · by_cases hful : 1 ≤ parseDigits (s.numberBuffer ++ [d])
            ∧ parseDigits (s.numberBuffer ++ [d]) ≤ N
        · have hspec : cascadeSpec s.numberBuffer d N = some (s.numberBuffer ++ [d]) := by
            unfold cascadeSpec
            rw [if_pos hful]
          have hr : processCascadingSelection s d N fresh
              = ⟨{ s with numberBuffer := s.numberBuffer ++ [d], numberBufferTimeout := some fresh },
                  [.onTickerChange (parseDigits (s.numberBuffer ++ [d]))], [],
                  [⟨fresh, 1500, .clearNumberBuffer⟩], fresh + 1⟩ := by
            simp only [processCascadingSelection]
            rw [if_pos hful]
          rw [hspec]
          simp [handleKeyPress, hd, hc, hn, h1, hr]
        · rcases hcf : cascadeFind s.numberBuffer d N with _ | cand
          · have hspec : cascadeSpec s.numberBuffer d N = none := by
              unfold cascadeSpec
              rw [if_neg hful, ← cascadeFind_eq_specFirstSuffix, hcf, if_neg h1]
            have hr : processCascadingSelection s d N fresh
                = ⟨{ s with numberBuffer := [] }, [], [], [], fresh⟩ := by
              simp only [processCascadingSelection, hcf]
              rw [if_neg hful, if_neg h1]
            rw [hspec]
            simp [handleKeyPress, hd, hc, hn, h1, hr]
          · have hspec : cascadeSpec s.numberBuffer d N = some cand := by
              unfold cascadeSpec
              rw [if_neg hful, ← cascadeFind_eq_specFirstSuffix, hcf]
            have hr : processCascadingSelection s d N fresh
                = ⟨{ s with numberBuffer := cand, numberBufferTimeout := some fresh },
                    [.onTickerChange (parseDigits cand)], [],
                    [⟨fresh, 1500, .clearNumberBuffer⟩], fresh + 1⟩ := by
              simp only [processCascadingSelection, hcf]
              rw [if_neg hful]
            rw [hspec]
            simp [handleKeyPress, hd, hc, hn, h1, hr]
  · decide

/-- Witness for C2's universally quantified part: digit 4 on an empty
buffer with 9 tickers. -/
theorem digit_cascading_resolution_witness :
    (match cascadeSpec ([] : List (Fin 10)) 4 9 with
     | some c =>
        (handleKeyPress (.digit 4) createInitialHotkeyState 9 0).state.numberBuffer = c
        ∧ (handleKeyPress (.digit 4) createInitialHotkeyState 9 0).effects
            = [.onTickerChange (parseDigits c)]
     | none =>
        (handleKeyPress (.digit 4) createInitialHotkeyState 9 0).state.numberBuffer = []
        ∧ (handleKeyPress (.digit 4) createInitialHotkeyState 9 0).effects = []) :=
  digit_cascading_resolution.1 createInitialHotkeyState 4 9 0 rfl rfl

end TickerDeck
